import Mathlib

/-!
Verification development for the `switch` repository: shallow embeddings of
the multi-scenario Gurobi solver adapter (`switch_model/utilities/multi_scenario.py`),
the results-reporting accumulator (`switch_model/utilities/results_info.py`),
the compare graphing CLI (`switch_model/tools/graphing/compare.py`) and the
database-extraction script
(`database/baseline_creation/get_inputs_good_JS_python2_baseline.py`),
together with theorems settling the specification's claims about them.
-/

namespace Switch

/-! ## Definitions

### `write_tab` from `get_inputs_good_JS_python2_baseline.py`

A database cursor yields rows whose elements are Python values (strings,
numbers, or `None`).  `write_tab` joins the headers with tabs, then writes
one line per row, converting each element with `str` and replacing `None`
by a literal `.`. -/

/-- A non-`None` Python value coming out of a database row: a string or an
integer (the element kinds that matter for formatting). -/
inductive PyVal where
  | pstr (s : String)
  | pint (n : Int)
deriving DecidableEq, Repr

/-- Python's `str()` on a database element. -/
def pyStr : PyVal → String
  | .pstr s => s
  | .pint n => toString n

/-- A cell of a cursor row: `none` models Python's `None`. -/
abbrev Cell := Option PyVal

/-- `'.' if element is None else str(element)` from `write_tab`. -/
def cleanCell : Cell → String
  | none => "."
  | some v => pyStr v

/-- `os.linesep` on the platform the script targets. -/
def lineSep : String := "\n"

/-- `write_tab(fname, headers, cursor)`: the full contents written to the
file, accumulated write by write exactly as the source loops over the
cursor rows. -/
def write_tab (headers : List String) (rows : List (List Cell)) : String :=
  let afterHeader := String.intercalate "\t" headers ++ lineSep
  rows.foldl
    (fun acc row => acc ++ String.intercalate "\t" (row.map cleanCell) ++ lineSep)
    afterHeader

/-- Modelled from the spec: "tab-separated value files with a header row
(values are strings; missing values become a literal `.`)" — the first line
is the headers joined by tabs, followed by one line per row with every
element stringified, `None` becoming `.`, elements joined by tabs. -/
def write_tab_expected (headers : List String) (rows : List (List Cell)) : String :=
  String.intercalate "\t" headers ++ lineSep ++
    String.join (rows.map fun row =>
      String.intercalate "\t" (row.map cleanCell) ++ lineSep)

/-! ### Tunnel / database-connection handling in `main` of the extraction script

`main` starts the SSH tunnel, then opens the database connection inside a
`try`; on any exception it stops the tunnel and re-raises. -/

/-- The state of the SSH tunnel owned by the extraction script. -/
structure TunnelState where
  running : Bool
deriving DecidableEq, Repr

/-- `tunnel.start()`. -/
def tunnelStart (_s : TunnelState) : TunnelState := ⟨true⟩

/-- `tunnel.stop()`. -/
def tunnelStop (_s : TunnelState) : TunnelState := ⟨false⟩

/-- The tunnel-and-connect phase of `main`: start the tunnel, then attempt
`psycopg2.connect`.  `connect` is the (abstract) outcome of that call —
`.error e` when it raises exception `e`, `.ok c` when it returns connection
`c`.  On an exception the script stops the tunnel and re-raises (a bare
`raise` re-raises the original exception unchanged). -/
def mainConnect {E C : Type} (s0 : TunnelState) (connect : Except E C) :
    TunnelState × Except E C :=
  let s1 := tunnelStart s0
  match connect with
  | .error e => (tunnelStop s1, .error e)
  | .ok c => (s1, .ok c)

/-! ### `main` of `switch_model/tools/graphing/compare.py` -/

/-- Outcome of the compare CLI's argument handling: the list of
`(rel_path, name)` pairs from which the `Scenario` objects are built, or
the message of the raised exception.  `normpath` abstracts
`os.path.normpath`. -/
def compareMain (normpath : String → String)
    (scenarioArgs : List String) (names : Option (List String)) :
    Except String (List (String × String)) :=
  if scenarioArgs.length < 2 then
    .error "Didn't pass in enough scenarios to compare"
  else
    match names with
    | none =>
        .ok (scenarioArgs.zip (scenarioArgs.map normpath))
    | some ns =>
        if ns.length ≠ scenarioArgs.length then
          .error ("Gave " ++ toString ns.length ++ " scenario names but there were "
            ++ toString scenarioArgs.length ++ " scenarios.")
        else
          .ok (scenarioArgs.zip ns)

/-! ### `results_info.py` -/

/-- The `_scenario_info_data` pandas `DataFrame`: row labels, column labels
(each in insertion order) and the cell contents, `none` for never-assigned
cells (pandas `NaN`). -/
structure ResultsTable where
  rows : List String
  cols : List String
  cell : String → String → Option String

/-- The module state of `results_info.py`: `_general_info_data` and
`_scenario_info_data`. -/
structure InfoState where
  general : List (String × String)
  table : ResultsTable

/-- The initial module state: empty list, empty `DataFrame`. -/
def infoInit : InfoState :=
  { general := [], table := { rows := [], cols := [], cell := fun _ _ => none } }

/-- `add_general_info(name, val)` appends the pair. -/
def add_general_info (st : InfoState) (name val : String) : InfoState :=
  { st with general := st.general ++ [(name, val)] }

/-- `_scenario_info_data.loc[name, scenario] = value`: sets the cell,
appending the row label and the column label when new. -/
def add_results_info (st : InfoState) (name scenarioName value : String) : InfoState :=
  { st with table :=
    { rows := if name ∈ st.table.rows then st.table.rows else st.table.rows ++ [name]
      cols := if scenarioName ∈ st.table.cols then st.table.cols
              else st.table.cols ++ [scenarioName]
      cell := fun r c =>
        if r = name ∧ c = scenarioName then some value else st.table.cell r c } }

/-- `save_info(filepath)`: the full file contents, write by write.
`render` abstracts `tabulate(pd.DataFrame(data), headers=columns)`, taking
the accumulated table and the headers argument passed alongside it. -/
def save_info (render : ResultsTable → List String → String) (st : InfoState) : String :=
  "##########\n GENERAL\n##########\n\n"
    ++ (String.intercalate "\n" (st.general.map fun v => v.1 ++ ": " ++ v.2) ++ "\n\n")
    ++ "##########\n RESULTS\n##########\n\n"
    ++ render st.table st.table.cols

/-- A run of the reporting module: fold the recorded calls over the initial
state.  `gcalls` are the `add_general_info` calls in order; `rcalls` the
`add_results_info` calls in order. -/
def infoRun (gcalls : List (String × String)) (rcalls : List (String × String × String)) :
    InfoState :=
  rcalls.foldl (fun st c => add_results_info st c.1 c.2.1 c.2.2)
    (gcalls.foldl (fun st c => add_general_info st c.1 c.2) infoInit)

/-! ### `multi_scenario.py`: parameter changes and the scenario context manager

Pyomo mutable parameters are indexed by a component name and an index
tuple; their values are Python objects (`None` before initialization).  We
model a parameter store as a total map from such keys to `Option Int`,
with `none` for Python `None`. -/

/-- The identity of one mutable parameter datum: `(param, indexes)`. -/
abbrev PKey := String × List String

/-- The mutable-parameter state of a Pyomo model instance. -/
abbrev ParamStore := PKey → Option Int

/-- Pointwise update of a parameter store. -/
def updateParam (p : ParamStore) (k : PKey) (v : Option Int) : ParamStore :=
  fun k2 => if k2 = k then v else p k2

/-- `MultiScenarioParamChange`: one stored override.  `old_value` is the
mutable backup slot, `none` playing the role of Python `None` (both the
"never saved" sentinel and a saved `None` value, exactly as in the
source). -/
structure MultiScenarioParamChange where
  param : String
  indexes : List String
  new_value : Int
  old_value : Option Int
deriving DecidableEq, Repr

/-- The `(param, indexes)` pair a change targets. -/
def MultiScenarioParamChange.key (c : MultiScenarioParamChange) : PKey :=
  (c.param, c.indexes)

/-- `apply_change(model)`: back up the current value unless a backup is
already present, then overwrite; returns the updated change object and the
updated parameter store. -/
def apply_change (c : MultiScenarioParamChange) (p : ParamStore) :
    MultiScenarioParamChange × ParamStore :=
  let old := if c.old_value.isNone then p c.key else c.old_value
  ({ c with old_value := old }, updateParam p c.key (some c.new_value))

/-- `undo_change(model)`: write the backed-up value back. -/
def undo_change (c : MultiScenarioParamChange) (p : ParamStore) : ParamStore :=
  updateParam p c.key c.old_value

/-- The `for change in self.changes: change.apply_change(model)` loop of
`__enter__`, returning the mutated change objects and the final store. -/
def applyChanges : List MultiScenarioParamChange → ParamStore →
    List MultiScenarioParamChange × ParamStore
  | [], p => ([], p)
  | c :: rest, p =>
      let cp := apply_change c p
      let restp := applyChanges rest cp.2
      (cp.1 :: restp.1, restp.2)

/-- The `for change in self.changes: change.undo_change(model)` loop of
`__exit__`. -/
def undoChanges (cs : List MultiScenarioParamChange) (p : ParamStore) : ParamStore :=
  cs.foldl (fun p c => undo_change c p) p

/-- The slice of a Pyomo model instance the multi-scenario code touches:
the mutable parameters, and the active variable data objects with their
values and staleness flags (variables are identified by `Nat`). -/
structure PModel where
  params : ParamStore
  vars : List Nat
  varValue : Nat → Option Int
  varStale : Nat → Bool

/-- A `MultiScenario`: a named list of parameter changes, plus the results
map filled in by `_load_vars` (`none` until then, as in the source where
`self.results = None` in `__init__`). -/
structure MultiScenario where
  name : String
  changes : List MultiScenarioParamChange
  results : Option (Nat → Option Int)

/-- `MultiScenario.__enter__` (after `__call__` bound the model): apply all
changes; when results are present, load them into every non-stale
variable.  Returns the mutated scenario object and the mutated model. -/
def msEnter (s : MultiScenario) (m : PModel) : MultiScenario × PModel :=
  let ap := applyChanges s.changes m.params
  let m1 : PModel := { m with params := ap.2 }
  let m2 : PModel :=
    match s.results with
    | none => m1
    | some res =>
        { m1 with varValue := fun v =>
            if v ∈ m1.vars ∧ m1.varStale v = false then res v else m1.varValue v }
  ({ s with changes := ap.1 }, m2)

/-- `MultiScenario.__exit__`: undo all changes; when results are present,
clear every non-stale variable's value. -/
def msExit (s : MultiScenario) (m : PModel) : PModel :=
  let p1 := undoChanges s.changes m.params
  let m1 : PModel := { m with params := p1 }
  match s.results with
  | none => m1
  | some _ =>
      { m1 with varValue := fun v =>
          if v ∈ m1.vars ∧ m1.varStale v = false then none else m1.varValue v }

/-! ### `load_inputs` -/

/-- What `load_inputs` needs to know about a model attribute named by a
CSV row: its mutability and its index set's dimension, `none` modelling
Pyomo's `UnknownSetDimen`. -/
structure ParamInfo where
  mutable : Bool
  dimen : Option Nat
deriving DecidableEq, Repr

/-- `getattr(mod, param_name)` for parameter components. -/
abbrev ModelDecls := String → Option ParamInfo

/-- One row of `multi_scenario.csv` (columns asserted by the source:
scenario, param, value, INDEX_1..INDEX_4). -/
structure CsvRow where
  scenario : String
  param : String
  value : Int
  idx1 : String
  idx2 : String
  idx3 : String
  idx4 : String
deriving DecidableEq, Repr

/-- The `row[3:...]` slice source for the index columns. -/
def CsvRow.indexCols (r : CsvRow) : List String := [r.idx1, r.idx2, r.idx3, r.idx4]

/-- The reserved base scenario created up front by `load_inputs`. -/
def baselineScenario : MultiScenario :=
  { name := "Baseline", changes := [], results := none }

/-- The `if scenario_name not in scenarios:` insertion into the
insertion-ordered scenario dictionary (modelled as a list). -/
def ensureScenario (acc : List MultiScenario) (n : String) : List MultiScenario :=
  if (acc.find? (fun s => s.name == n)).isSome then acc
  else acc ++ [{ name := n, changes := [], results := none }]

/-- `scenario.changes.append(change)`: mutate the named scenario's change
list in place. -/
def appendScenarioChange (acc : List MultiScenario) (n : String)
    (c : MultiScenarioParamChange) : List MultiScenario :=
  acc.map fun s => if s.name = n then { s with changes := s.changes ++ [c] } else s

/-- The body of the `for _, row in df.iterrows()` loop: either raise
(`Except.error`) or return the updated scenario dictionary. -/
def processRow (decls : ModelDecls) (acc : List MultiScenario) (r : CsvRow) :
    Except String (List MultiScenario) :=
  if r.scenario = "Baseline" then
    .error "The scenario name Baseline is reserverd."
  else
    match decls r.param with
    | none => .error ("AttributeError: " ++ r.param)
    | some info =>
        if info.mutable = false then
          .error ("Parameter " ++ r.param ++ " must be mutable. Set mutable=True.")
        else
          match info.dimen with
          | none =>
              .error ("Index " ++ r.param
                ++ " has unknown dimension. Specify dimen= during its creation.")
          | some d =>
              .ok (appendScenarioChange (ensureScenario acc r.scenario) r.scenario
                { param := r.param, indexes := r.indexCols.take d,
                  new_value := r.value, old_value := none })

/-- The `for _, row in df.iterrows()` loop: process rows in order, a raise
aborting the loop. -/
def loadLoop (decls : ModelDecls) : List CsvRow → List MultiScenario →
    Except String (List MultiScenario)
  | [], acc => .ok acc
  | r :: rest, acc =>
      match processRow decls acc r with
      | .error e => .error e
      | .ok acc2 => loadLoop decls rest acc2

/-- `load_inputs(mod, _, inputs_dir)`: start from the dictionary holding
only the reserved `Baseline` scenario, process every CSV row in order, and
produce `mod.scenarios` (the dictionary's values in insertion order). -/
def load_inputs (decls : ModelDecls) (rows : List CsvRow) :
    Except String (List MultiScenario) :=
  loadLoop decls rows [baselineScenario]

/-! ### `GurobiMultiScenarioSolver._load_vars` -/

/-- The solver-interface state `_load_vars` reads: the keys of
`_pyomo_var_to_solver_var_map` in order, the map itself, the
`_referenced_variables` counts, the per-scenario Gurobi solution values
(`ScenNX`, by scenario number and Gurobi variable), and the incoming
staleness flags of the Pyomo variables. -/
structure LoadSolverState where
  solverVars : List Nat
  varMap : Nat → Nat
  refVars : Nat → Nat
  scenNX : Nat → Nat → Int
  stale : Nat → Bool

/-- The `for var in vars_to_load: if ref_vars[var] > 0: var.stale = False`
loop. -/
def markStale (st : LoadSolverState) (vtl : List Nat) : Nat → Bool :=
  vtl.foldl
    (fun stale v => if st.refVars v > 0 then Function.update stale v false else stale)
    st.stale

/-- One scenario iteration of `_load_vars`: select scenario `i`, fetch
`ScenNX` for the Gurobi variables of `vtl`, and build the fresh
`ComponentMap` of results for the non-stale variables. -/
def scenResultsMap (st : LoadSolverState) (staleAfter : Nat → Bool) (vtl : List Nat)
    (i : Nat) : Nat → Option Int :=
  let gvals := (vtl.map st.varMap).map (st.scenNX i)
  (vtl.zip gvals).foldl
    (fun res vv =>
      if staleAfter vv.1 = false then Function.update res vv.1 (some vv.2) else res)
    (fun _ => none)

/-- `_load_vars(vars_to_load)`: default the variable list, mark referenced
variables non-stale, then store each scenario's results map into the
scenario at that index.  Returns the final staleness flags and the updated
scenario list. -/
def load_vars (st : LoadSolverState) (scns : List MultiScenario)
    (vars_to_load : Option (List Nat)) : (Nat → Bool) × List MultiScenario :=
  let vtl := vars_to_load.getD st.solverVars
  let staleAfter := markStale st vtl
  (staleAfter,
    scns.enum.map fun is => { is.2 with results := some (scenResultsMap st staleAfter vtl is.1) })

/-! ### `GurobiMultiScenarioSolver._add_scenarios` -/

/-- What `generate_standard_repn(expr, quadratic=True)` exposes to
`_add_scenarios`: the linear coefficient vector and the matching linear
variables. -/
structure StdRepn where
  linear_coefs : List Int
  linear_vars : List Nat

/-- The Gurobi model state `_add_scenarios` writes: `NumScenarios`, the
currently selected `Params.ScenarioNumber`, the per-scenario names
(`ScenNName`) and the per-scenario objective-coefficient slots
(`ScenNObj`, by scenario number and Gurobi variable; `none` where never
written, i.e. left at the base value). -/
structure GurobiModel where
  numScenarios : Nat
  curScenario : Nat
  scenName : Nat → Option String
  scenObj : Nat → Nat → Option Int

/-- `gurobi_var.ScenNObj = coef`: writes into the currently selected
scenario's slot. -/
def setScenNObj (g : GurobiModel) (gv : Nat) (coef : Int) : GurobiModel :=
  { g with scenObj := fun i v =>
      if i = g.curScenario ∧ v = gv then some coef else g.scenObj i v }

/-- The inner `for base_coef, scenario_coef, pyomo_var in zip(...)` loop of
`_add_scenarios` over an already-zipped entry list
`((base_coef, scenario_coef), pyomo_var)`: write `ScenNObj` where the
coefficients differ (`DEBUG` is `False`, so no `VTag`s). -/
def writeEntries (vm : Nat → Nat) (entries : List ((Int × Int) × Nat))
    (g : GurobiModel) : GurobiModel :=
  entries.foldl
    (fun g e => if e.1.2 ≠ e.1.1 then setScenNObj g (vm e.2) e.1.2 else g) g

/-- The zip of `base_obj.linear_coefs`, `scenario_obj.linear_coefs` and
`base_obj.linear_vars`, truncated to the shortest as in Python. -/
def diffEntries (base scen : StdRepn) : List ((Int × Int) × Nat) :=
  (base.linear_coefs.zip scen.linear_coefs).zip base.linear_vars

/-- The coefficient vector `generate_standard_repn` produces inside
`with scenario(model):` — the objective repn of the model with the
scenario's changes applied. -/
def scenCoefs (genRepn : ParamStore → StdRepn) (p : ParamStore) (s : MultiScenario) :
    List Int :=
  (genRepn (applyChanges s.changes p).2).linear_coefs

/-- `gurobi_model.Params.ScenarioNumber = i; gurobi_model.ScenNName =
scenario.name`: select scenario `i` and set its name. -/
def selScen (i : Nat) (s : MultiScenario) (g : GurobiModel) : GurobiModel :=
  { g with curScenario := i
           scenName := fun j => if j = i then some s.name else g.scenName j }

/-- The `for i, scenario in enumerate(self.scenarios)` loop of
`_add_scenarios`, starting at index `i`.  Each iteration selects the
scenario slot, sets its name, computes the scenario objective inside the
scenario context manager (`with scenario(model):`), checks the adapter
invariants, and writes the differing coefficients (skipped for index 0 by
the `continue`). -/
def addScenLoop (genRepn : ParamStore → StdRepn) (vm : Nat → Nat) (base : StdRepn)
    (i : Nat) : List MultiScenario → PModel → GurobiModel → Except String GurobiModel
  | [], _, g => .ok g
  | s :: rest, m, g =>
      if i = 0 then
        if base.linear_coefs ≠ (genRepn (msEnter s m).2.params).linear_coefs then
          .error "First scenario should be the base scenario (no changes)."
        else
          addScenLoop genRepn vm base (i + 1) rest
            (msExit (msEnter s m).1 (msEnter s m).2) (selScen i s g)
      else
        if base.linear_coefs = (genRepn (msEnter s m).2.params).linear_coefs then
          .error ("No difference in objective function between scenario "
            ++ s.name ++ " and base scenario.")
        else
          addScenLoop genRepn vm base (i + 1) rest
            (msExit (msEnter s m).1 (msEnter s m).2)
            (writeEntries vm (diffEntries base (genRepn (msEnter s m).2.params))
              (selScen i s g))

/-- `_add_scenarios(model)`: set `NumScenarios`, compute the base-case
repn, and run the scenario loop from index 0.  `genRepn` abstracts
`generate_standard_repn(self._objective.expr, quadratic=True)` as a
function of the mutable-parameter state. -/
def add_scenarios (genRepn : ParamStore → StdRepn) (vm : Nat → Nat)
    (scns : List MultiScenario) (m : PModel) (g0 : GurobiModel) :
    Except String GurobiModel :=
  addScenLoop genRepn vm (genRepn m.params) 0 scns m
    { g0 with numScenarios := scns.length }

/-! ### Concrete instances used by witnesses and counterexamples -/

/-- An empty Gurobi model state. -/
def exG0 : GurobiModel :=
  { numScenarios := 0, curScenario := 0, scenName := fun _ => none,
    scenObj := fun _ _ => none }

/-- A one-parameter store: `("a", [])` holds 1. -/
def exStore : ParamStore := fun k => if k = ("a", []) then some 1 else none

/-- A model with the one-parameter store and no variables. -/
def exModel : PModel :=
  { params := exStore, vars := [], varValue := fun _ => none, varStale := fun _ => true }

/-- A one-variable objective whose coefficient is the value of parameter
`("a", [])`. -/
def exRepn : ParamStore → StdRepn := fun p =>
  { linear_coefs := [(p ("a", [])).getD 0], linear_vars := [0] }

/-- A fresh change setting `("a", [])` to 2. -/
def exChange : MultiScenarioParamChange :=
  { param := "a", indexes := [], new_value := 2, old_value := none }

/-- Baseline plus one effective scenario. -/
def exScns : List MultiScenario :=
  [baselineScenario, { name := "s1", changes := [exChange], results := none }]

/-- Baseline plus one scenario with no detectable effect (it changes a
parameter the objective does not use). -/
def exScnsNoEffect : List MultiScenario :=
  [baselineScenario,
   { name := "s1",
     changes := [{ param := "b", indexes := [], new_value := 2, old_value := none }],
     results := none }]

/-- A scenario with a single fresh change. -/
def exFreshScn : MultiScenario :=
  { name := "s1", changes := [exChange], results := none }

/-- A change carrying a stale pre-set backup value. -/
def exStaleChange : MultiScenarioParamChange :=
  { param := "a", indexes := [], new_value := 2, old_value := some 5 }

/-- A scenario whose single change carries a stale pre-set backup value. -/
def exStaleScn : MultiScenario :=
  { name := "s", changes := [exStaleChange], results := none }

/-- A model whose parameter `("a", [])` currently holds 7. -/
def exModel7 : PModel :=
  { params := fun k => if k = ("a", []) then some 7 else none,
    vars := [], varValue := fun _ => none, varStale := fun _ => true }

/-- Declarations for `load_inputs` examples: parameter `"a"` is mutable
with dimension 0. -/
def exDecls : ModelDecls := fun n =>
  if n = "a" then some { mutable := true, dimen := some 0 } else none

/-- The change `load_inputs` builds from `exRow` under `exDecls`. -/
def exRowChange : MultiScenarioParamChange :=
  { param := "a", indexes := [], new_value := 2, old_value := none }

/-- The scenario list `load_inputs` produces from `[exRow]` under
`exDecls`. -/
def exLoadOut : List MultiScenario :=
  [baselineScenario, { name := "s1", changes := [exRowChange], results := none }]

/-- A well-formed CSV row referencing parameter `"a"`. -/
def exRow : CsvRow :=
  { scenario := "s1", param := "a", value := 2,
    idx1 := "", idx2 := "", idx3 := "", idx4 := "" }

/-- A CSV row using the reserved scenario name. -/
def exRowReserved : CsvRow :=
  { scenario := "Baseline", param := "a", value := 2,
    idx1 := "", idx2 := "", idx3 := "", idx4 := "" }

/-- A solver state for `_load_vars` examples: two variables, variable 0
referenced, variable 1 unreferenced, all initially stale. -/
def exLoadState : LoadSolverState :=
  { solverVars := [0, 1], varMap := fun v => v,
    refVars := fun v => if v = 0 then 1 else 0,
    scenNX := fun i v => Int.ofNat (10 * i + v), stale := fun _ => true }

/-- The Gurobi model state produced by the successful `_add_scenarios` run
on `exScns`. -/
def exAddOut : GurobiModel :=
  match add_scenarios exRepn id exScns exModel exG0 with
  | .ok g => g
  | .error _ => exG0

/-- A solver state where the only variable is unreferenced yet already
non-stale on entry to `_load_vars`. -/
def exLoadStateNS : LoadSolverState :=
  { solverVars := [1], varMap := fun v => v, refVars := fun _ => 0,
    scenNX := fun i v => Int.ofNat (10 * i + v), stale := fun _ => false }

/-! ## Theorems

### String helpers -/

theorem string_foldl_append (l : List String) (s : String) :
    l.foldl (fun r t => r ++ t) s = s ++ l.foldl (fun r t => r ++ t) "" := by
  induction l generalizing s with
  | nil => simp
  | cons a as ih =>
      simp only [List.foldl_cons]
      rw [ih (s ++ a), ih ("" ++ a)]
      simp [String.append_assoc]

theorem string_join_cons (s : String) (l : List String) :
    String.join (s :: l) = s ++ String.join l := by
  simp only [String.join, List.foldl_cons]
  exact string_foldl_append l ("" ++ s) |>.trans (by simp)

theorem write_tab_foldl_append (rows : List (List Cell)) (acc : String) :
    rows.foldl
      (fun acc row => acc ++ String.intercalate "\t" (row.map cleanCell) ++ lineSep)
      acc
    = acc ++ String.join (rows.map fun row =>
        String.intercalate "\t" (row.map cleanCell) ++ lineSep) := by
  induction rows generalizing acc with
  | nil => simp [String.join]
  | cons r rs ih =>
      simp only [List.foldl_cons, List.map_cons]
      rw [ih, string_join_cons]
      simp [String.append_assoc]

/-- C4: for every header list and row sequence, the file `write_tab`
produces starts with the headers joined by tabs on the first line, followed
by one line per row in which each element is stringified, `None` elements
become the literal `.`, and elements are joined by tabs. -/
theorem write_tab_matches_tab_format (headers : List String) (rows : List (List Cell)) :
    write_tab headers rows = write_tab_expected headers rows := by
  unfold write_tab write_tab_expected
  rw [write_tab_foldl_append]

/-! ### C7: tunnel shutdown on connection failure -/

/-- C7: when opening the database connection raises after the SSH tunnel
was started, `main` stops the tunnel and re-raises the original exception
unchanged; the tunnel is never left running by a connection failure. -/
theorem mainConnect_failure_stops_tunnel (E C : Type) (s0 : TunnelState) (e : E) :
    (mainConnect s0 (Except.error e : Except E C)).1.running = false ∧
    (mainConnect s0 (Except.error e : Except E C)).2 = Except.error e :=
  ⟨rfl, rfl⟩

/-! ### C8: compare CLI argument checks -/

/-- C8: the compare CLI raises exactly when fewer than two scenarios are
given or `--names` is present with a mismatched count; with `--names`
omitted (and enough scenarios) it succeeds, the names defaulting to the
normalized scenario paths. -/
theorem compareMain_argument_checks (normpath : String → String)
    (scenarioArgs : List String) (names : Option (List String)) :
    ((∃ e, compareMain normpath scenarioArgs names = .error e) ↔
      (scenarioArgs.length < 2 ∨
        ∃ ns, names = some ns ∧ ns.length ≠ scenarioArgs.length)) ∧
    (names = none → 2 ≤ scenarioArgs.length →
      compareMain normpath scenarioArgs names
        = .ok (scenarioArgs.zip (scenarioArgs.map normpath))) := by
  constructor
  · unfold compareMain
    by_cases hlen : scenarioArgs.length < 2
    · simp only [if_pos hlen]
      constructor
      · intro _; exact Or.inl hlen
      · intro _; exact ⟨_, rfl⟩
    · simp only [if_neg hlen]
      cases names with
      | none =>
          constructor
          · rintro ⟨e, h⟩; cases h
          · rintro (h | ⟨ns, hns, _⟩)
            · exact absurd h hlen
            · cases hns
      | some ns =>
          by_cases hn : ns.length = scenarioArgs.length
          · simp only [hn, ne_eq, not_true_eq_false, if_false]
            constructor
            · rintro ⟨e, h⟩; cases h
            · rintro (h | ⟨ns2, hns2, hne⟩)
              · exact absurd h hlen
              · cases hns2; exact absurd hn hne
          · simp only [ne_eq, hn, not_false_eq_true, if_true]
            constructor
            · intro _; exact Or.inr ⟨ns, rfl, hn⟩
            · intro _; exact ⟨_, rfl⟩
  · intro hn h2
    subst hn
    unfold compareMain
    rw [if_neg (by omega)]

/-- Witness for C8 at a concrete invocation with `--names` omitted. -/
theorem compareMain_argument_checks_witness :
    compareMain id ["a", "b"] none = .ok [("a", "a"), ("b", "b")] := by
  have h := (compareMain_argument_checks id ["a", "b"] none).2 rfl (by decide)
  simpa using h

/-! ### C10: the report layout of `save_info` -/

theorem add_results_info_general (st : InfoState) (n s v : String) :
    (add_results_info st n s v).general = st.general := rfl

theorem infoRun_general (gcalls : List (String × String))
    (rcalls : List (String × String × String)) :
    (infoRun gcalls rcalls).general = gcalls := by
  unfold infoRun
  have htab : ∀ (rc : List (String × String × String)) (st : InfoState),
      (rc.foldl (fun st c => add_results_info st c.1 c.2.1 c.2.2) st).general
        = st.general := by
    intro rc
    induction rc with
    | nil => intro st; rfl
    | cons c cs ih => intro st; simp [List.foldl_cons, ih, add_results_info_general]
  rw [htab]
  have hgen : ∀ (gc : List (String × String)) (st : InfoState),
      (gc.foldl (fun st c => add_general_info st c.1 c.2) st).general
        = st.general ++ gc := by
    intro gc
    induction gc with
    | nil => intro st; simp
    | cons c cs ih =>
        intro st
        simp only [List.foldl_cons]
        rw [ih (add_general_info st c.1 c.2)]
        simp [add_general_info]
  rw [hgen]
  simp [infoInit]

/-! ### C5: the scenario context manager and the model parameters -/

theorem updateParam_apply (p : ParamStore) (k : PKey) (v : Option Int) (k2 : PKey) :
    updateParam p k v k2 = if k2 = k then v else p k2 := rfl

theorem updateParam_idem (p : ParamStore) (k : PKey) (v w : Option Int) :
    updateParam (updateParam p k v) k w = updateParam p k w := by
  funext k2
  simp only [updateParam]
  split <;> rfl

theorem updateParam_self_value (p : ParamStore) (k : PKey) :
    updateParam p k (p k) = p := by
  funext k2
  simp only [updateParam]
  split
  next h => rw [h]
  next h => rfl

theorem updateParam_comm (p : ParamStore) (k k2 : PKey) (v w : Option Int)
    (h : k ≠ k2) :
    updateParam (updateParam p k v) k2 w = updateParam (updateParam p k2 w) k v := by
  funext k3
  simp only [updateParam]
  by_cases h3 : k3 = k2
  · have h4 : k3 ≠ k := fun he => h (he.symm.trans h3)
    rw [if_pos h3, if_neg h4, if_pos h3]
  · by_cases h4 : k3 = k
    · rw [if_neg h3, if_pos h4, if_pos h4]
    · rw [if_neg h3, if_neg h4, if_neg h4, if_neg h3]

theorem apply_change_key (c : MultiScenarioParamChange) (p : ParamStore) :
    (apply_change c p).1.key = c.key := rfl

theorem applyChanges_map_key (cs : List MultiScenarioParamChange) (p : ParamStore) :
    (applyChanges cs p).1.map MultiScenarioParamChange.key
      = cs.map MultiScenarioParamChange.key := by
  induction cs generalizing p with
  | nil => rfl
  | cons c rest ih =>
      simp only [applyChanges, List.map_cons]
      rw [ih]
      rfl

theorem undoChanges_updateParam (cs : List MultiScenarioParamChange)
    (q : ParamStore) (k : PKey) (v : Option Int)
    (hk : k ∉ cs.map MultiScenarioParamChange.key) :
    undoChanges cs (updateParam q k v) = updateParam (undoChanges cs q) k v := by
  induction cs generalizing q with
  | nil => rfl
  | cons c rest ih =>
      simp only [List.map_cons, List.mem_cons, not_or] at hk
      simp only [undoChanges, List.foldl_cons]
      have hstep : undo_change c (updateParam q k v)
          = updateParam (undo_change c q) k v :=
        updateParam_comm q k c.key v c.old_value hk.1
      rw [hstep]
      exact ih (undo_change c q) hk.2

/-- After `__enter__` runs with fresh backups and pairwise-distinct keys,
`__exit__`'s undo loop restores the parameter store exactly. -/
theorem apply_undo_roundtrip (cs : List MultiScenarioParamChange) (p : ParamStore)
    (hfresh : ∀ c ∈ cs, c.old_value = none)
    (hnd : (cs.map MultiScenarioParamChange.key).Nodup) :
    undoChanges (applyChanges cs p).1 (applyChanges cs p).2 = p := by
  induction cs generalizing p with
  | nil => rfl
  | cons c rest ih =>
      simp only [List.map_cons, List.nodup_cons] at hnd
      have hcf : c.old_value = none := hfresh c (List.mem_cons_self c rest)
      simp only [applyChanges]
      simp only [undoChanges, List.foldl_cons]
      have hc1 : (apply_change c p).1
          = { c with old_value := p c.key } := by
        simp [apply_change, hcf]
      have hkey : (apply_change c p).1.key = c.key := rfl
      have hundo : undo_change (apply_change c p).1
            (applyChanges rest (apply_change c p).2).2
          = updateParam (applyChanges rest (apply_change c p).2).2 c.key (p c.key) := by
        rw [hc1]
        rfl
      show undoChanges (applyChanges rest (apply_change c p).2).1
          (undo_change (apply_change c p).1 (applyChanges rest (apply_change c p).2).2) = p
      rw [hundo]
      have hnotin : c.key ∉ (applyChanges rest (apply_change c p).2).1.map
          MultiScenarioParamChange.key := by
        rw [applyChanges_map_key]
        exact hnd.1
      rw [undoChanges_updateParam _ _ _ _ hnotin]
      rw [ih (apply_change c p).2 (fun d hd => hfresh d (List.mem_cons_of_mem c hd)) hnd.2]
      show updateParam (updateParam p c.key (some c.new_value)) c.key (p c.key) = p
      rw [updateParam_idem, updateParam_self_value]

theorem msEnter_params (s : MultiScenario) (m : PModel) :
    (msEnter s m).2.params = (applyChanges s.changes m.params).2 := by
  unfold msEnter
  cases s.results <;> rfl

theorem msEnter_changes (s : MultiScenario) (m : PModel) :
    (msEnter s m).1.changes = (applyChanges s.changes m.params).1 := rfl

theorem msExit_params (s : MultiScenario) (m : PModel) :
    (msExit s m).params = undoChanges s.changes m.params := by
  unfold msExit
  cases s.results <;> rfl

/-- The parameter store after a full `with scenario(model):` block, when
the changes are pairwise-distinct and carry no pre-set backups, equals the
store before it. -/
theorem scenario_block_params (s : MultiScenario) (m : PModel)
    (hnd : (s.changes.map MultiScenarioParamChange.key).Nodup)
    (hfresh : ∀ c ∈ s.changes, c.old_value = none) :
    (msExit (msEnter s m).1 (msEnter s m).2).params = m.params := by
  rw [msExit_params, msEnter_changes, msEnter_params]
  exact apply_undo_roundtrip s.changes m.params hfresh hnd

/-- C5 (amended): entering then exiting a `MultiScenario` context restores
every parameter to its pre-entry value — hence the whole parameter store —
provided the changes target pairwise-distinct `(param, indexes)` pairs and
each change's backup slot (`old_value`) is unset on entry. -/
theorem msEnter_msExit_restores_params (s : MultiScenario) (m : PModel)
    (hnd : (s.changes.map MultiScenarioParamChange.key).Nodup)
    (hfresh : ∀ c ∈ s.changes, c.old_value = none) :
    (msExit (msEnter s m).1 (msEnter s m).2).params = m.params :=
  scenario_block_params s m hnd hfresh

/-- Witness for C5's amended round trip at a concrete scenario/model. -/
theorem msEnter_msExit_restores_params_witness :
    (msExit (msEnter exFreshScn exModel7).1 (msEnter exFreshScn exModel7).2).params
      = exModel7.params :=
  msEnter_msExit_restores_params exFreshScn exModel7 (by decide) (by decide)

/-- Counterexample to C5 as stated: with pairwise-distinct keys but a
pre-set `old_value`, exiting writes the stale backup (5) back even though
the parameter held 7 before entry, so the store is not restored. -/
theorem msEnter_msExit_not_roundtrip_with_preset_backup :
    (exStaleScn.changes.map MultiScenarioParamChange.key).Nodup ∧
    (msExit (msEnter exStaleScn exModel7).1 (msEnter exStaleScn exModel7).2).params
      ≠ exModel7.params :=
  ⟨by decide, fun h => absurd (congrFun h ("a", [])) (by decide)⟩

/-! ### C6: `load_inputs` -/

theorem ensureScenario_head (acc : List MultiScenario) (n : String)
    (hh : acc.head? = some baselineScenario) :
    (ensureScenario acc n).head? = some baselineScenario := by
  unfold ensureScenario
  split
  · exact hh
  · cases acc with
    | nil => simp at hh
    | cons b tl => simpa using hh

theorem appendScenarioChange_head (acc : List MultiScenario) (n : String)
    (c : MultiScenarioParamChange) (hn : ¬ (n = "Baseline"))
    (hh : acc.head? = some baselineScenario) :
    (appendScenarioChange acc n c).head? = some baselineScenario := by
  cases acc with
  | nil => simp at hh
  | cons b tl =>
      have hb : b = baselineScenario := by simpa using hh
      subst hb
      have hname : ¬ (baselineScenario.name = n) := fun he => hn he.symm
      simp [appendScenarioChange, hname]

theorem processRow_preserves_head (decls : ModelDecls) (acc : List MultiScenario)
    (r : CsvRow) (acc2 : List MultiScenario)
    (hh : acc.head? = some baselineScenario)
    (hok : processRow decls acc r = .ok acc2) :
    acc2.head? = some baselineScenario := by
  unfold processRow at hok
  by_cases hb : r.scenario = "Baseline"
  · rw [if_pos hb] at hok
    cases hok
  · rw [if_neg hb] at hok
    cases hinfo : decls r.param with
    | none =>
        simp only [hinfo] at hok
        cases hok
    | some info =>
        simp only [hinfo] at hok
        by_cases hmut : info.mutable = false
        · rw [if_pos hmut] at hok
          cases hok
        · rw [if_neg hmut] at hok
          cases hdim : info.dimen with
          | none =>
              simp only [hdim] at hok
              cases hok
          | some d =>
              simp only [hdim] at hok
              injection hok with hok
              subst hok
              exact appendScenarioChange_head _ _ _ hb
                (ensureScenario_head acc r.scenario hh)

theorem loadLoop_preserves_head (decls : ModelDecls) :
    ∀ (rows : List CsvRow) (acc scns : List MultiScenario),
    acc.head? = some baselineScenario →
    loadLoop decls rows acc = .ok scns →
    scns.head? = some baselineScenario := by
  intro rows
  induction rows with
  | nil =>
      intro acc scns hh hok
      injection hok with hok
      exact hok ▸ hh
  | cons r rest ih =>
      intro acc scns hh hok
      rw [loadLoop] at hok
      cases hpr : processRow decls acc r with
      | error e => rw [hpr] at hok; cases hok
      | ok acc2 =>
          rw [hpr] at hok
          exact ih acc2 scns (processRow_preserves_head decls acc r acc2 hh hpr) hok

theorem processRow_error_of_offending (decls : ModelDecls) (acc : List MultiScenario)
    (r : CsvRow)
    (hoff : r.scenario = "Baseline" ∨ ∃ info, decls r.param = some info ∧
      (info.mutable = false ∨ info.dimen = none)) :
    ∃ e, processRow decls acc r = .error e := by
  by_cases hb : r.scenario = "Baseline"
  · refine ⟨"The scenario name Baseline is reserverd.", ?_⟩
    unfold processRow
    rw [if_pos hb]
  · rcases hoff with hb2 | ⟨info, hinfo, hbad⟩
    · exact absurd hb2 hb
    · by_cases hmut : info.mutable = false
      · refine ⟨"Parameter " ++ r.param ++ " must be mutable. Set mutable=True.", ?_⟩
        unfold processRow
        rw [if_neg hb]
        simp only [hinfo]
        rw [if_pos hmut]
      · rcases hbad with hmut2 | hdim
        · exact absurd hmut2 hmut
        · refine ⟨"Index " ++ r.param
            ++ " has unknown dimension. Specify dimen= during its creation.", ?_⟩
          unfold processRow
          rw [if_neg hb]
          simp only [hinfo]
          rw [if_neg hmut]
          simp only [hdim]

theorem loadLoop_error_of_offending (decls : ModelDecls) :
    ∀ (rows : List CsvRow) (acc : List MultiScenario),
    (∃ r ∈ rows, r.scenario = "Baseline" ∨ ∃ info, decls r.param = some info ∧
      (info.mutable = false ∨ info.dimen = none)) →
    ∃ e, loadLoop decls rows acc = .error e := by
  intro rows
  induction rows with
  | nil =>
      intro acc hoff
      rcases hoff with ⟨r, hr, _⟩
      cases hr
  | cons r rest ih =>
      intro acc hoff
      cases hpr : processRow decls acc r with
      | error e =>
          refine ⟨e, ?_⟩
          rw [loadLoop, hpr]
      | ok acc2 =>
          rcases hoff with ⟨r0, hr0, hoff0⟩
          rcases List.mem_cons.mp hr0 with hr0 | hr0
          · subst hr0
            rcases processRow_error_of_offending decls acc r0 hoff0 with ⟨e, he⟩
            rw [hpr] at he
            cases he
          · rcases ih acc2 ⟨r0, hr0, hoff0⟩ with ⟨e, he⟩
            refine ⟨e, ?_⟩
            rw [loadLoop, hpr]
            exact he

/-- C6: whenever `load_inputs` accepts its CSV, the resulting scenario
list is non-empty and starts with the reserved `Baseline` scenario with an
empty change list; and it raises whenever some row names the reserved
scenario `Baseline`, references a non-mutable parameter, or references a
parameter whose index set has unknown dimension. -/
theorem load_inputs_baseline_and_raises (decls : ModelDecls) (rows : List CsvRow) :
    (∀ scns, load_inputs decls rows = .ok scns →
      scns ≠ [] ∧ scns.head? = some baselineScenario) ∧
    ((∃ r ∈ rows, r.scenario = "Baseline" ∨ ∃ info, decls r.param = some info ∧
        (info.mutable = false ∨ info.dimen = none)) →
      ∃ e, load_inputs decls rows = .error e) := by
  constructor
  · intro scns hok
    have hh := loadLoop_preserves_head decls rows [baselineScenario] scns (by rfl) hok
    refine ⟨?_, hh⟩
    intro hne
    rw [hne] at hh
    cases hh
  · intro hoff
    exact loadLoop_error_of_offending decls rows [baselineScenario] hoff

/-- Witness for C6 at a concrete accepted CSV. -/
theorem load_inputs_baseline_and_raises_witness :
    exLoadOut ≠ [] ∧ exLoadOut.head? = some baselineScenario :=
  (load_inputs_baseline_and_raises exDecls [exRow]).1 exLoadOut rfl

/-! ### C3 and C9: `_load_vars` -/

theorem markStale_foldl (st : LoadSolverState) :
    ∀ (vtl : List Nat) (g : Nat → Bool) (v : Nat),
    vtl.foldl
      (fun stale w => if st.refVars w > 0 then Function.update stale w false else stale)
      g v
    = if v ∈ vtl ∧ st.refVars v > 0 then false else g v := by
  intro vtl
  induction vtl with
  | nil => intro g v; simp
  | cons w ws ih =>
      intro g v
      simp only [List.foldl_cons]
      rw [ih]
      by_cases hv : v ∈ ws ∧ st.refVars v > 0
      · rw [if_pos hv, if_pos ⟨List.mem_cons_of_mem w hv.1, hv.2⟩]
      · rw [if_neg hv]
        by_cases hvw : v = w
        · subst hvw
          by_cases hr : st.refVars v > 0
          · rw [if_pos hr, if_pos ⟨List.mem_cons_self v ws, hr⟩]
            exact Function.update_same v false g
          · rw [if_neg hr, if_neg (fun hc => hr hc.2)]
        · have hnot : ¬ (v ∈ w :: ws ∧ st.refVars v > 0) := by
            rintro ⟨hm, hr⟩
            rcases List.mem_cons.mp hm with hm | hm
            · exact hvw hm
            · exact hv ⟨hm, hr⟩
          rw [if_neg hnot]
          by_cases hr : st.refVars w > 0
          · rw [if_pos hr]
            exact Function.update_noteq hvw false g
          · rw [if_neg hr]

theorem markStale_eq (st : LoadSolverState) (vtl : List Nat) (v : Nat) :
    markStale st vtl v
      = if v ∈ vtl ∧ st.refVars v > 0 then false else st.stale v :=
  markStale_foldl st vtl st.stale v

theorem zip_self_map (l : List Nat) (f : Nat → Int) :
    l.zip (l.map f) = l.map fun v => (v, f v) := by
  induction l with
  | nil => rfl
  | cons a as ih => simp [ih]

theorem scenResults_foldl (stale2 : Nat → Bool) (val : Nat → Int) :
    ∀ (l : List Nat) (acc : Nat → Option Int) (v : Nat),
    ((l.map fun w => (w, val w)).foldl
      (fun (res : Nat → Option Int) (vv : Nat × Int) =>
        if stale2 vv.1 = false then Function.update res vv.1 (some vv.2) else res)
      acc) v
    = if v ∈ l ∧ stale2 v = false then some (val v) else acc v := by
  intro l
  induction l with
  | nil => intro acc v; simp
  | cons w ws ih =>
      intro acc v
      simp only [List.map_cons, List.foldl_cons]
      rw [ih]
      by_cases hv : v ∈ ws ∧ stale2 v = false
      · rw [if_pos hv, if_pos ⟨List.mem_cons_of_mem w hv.1, hv.2⟩]
      · rw [if_neg hv]
        by_cases hvw : v = w
        · subst hvw
          by_cases hs : stale2 v = false
          · rw [if_pos hs, if_pos ⟨List.mem_cons_self v ws, hs⟩]
            exact Function.update_same v (some (val v)) acc
          · rw [if_neg hs, if_neg (fun hc => hs hc.2)]
        · have hnot : ¬ (v ∈ w :: ws ∧ stale2 v = false) := by
            rintro ⟨hm, hs⟩
            rcases List.mem_cons.mp hm with hm | hm
            · exact hvw hm
            · exact hv ⟨hm, hs⟩
          rw [if_neg hnot]
          by_cases hs : stale2 w = false
          · rw [if_pos hs]
            exact Function.update_noteq hvw (some (val w)) acc
          · rw [if_neg hs]

theorem scenResultsMap_eq (st : LoadSolverState) (stale2 : Nat → Bool)
    (vtl : List Nat) (i : Nat) (v : Nat) :
    scenResultsMap st stale2 vtl i v
      = if v ∈ vtl ∧ stale2 v = false
        then some (st.scenNX i (st.varMap v)) else none := by
  unfold scenResultsMap
  rw [List.map_map, zip_self_map]
  exact scenResults_foldl stale2 (fun w => st.scenNX i (st.varMap w)) vtl
    (fun _ => none) v

theorem load_vars_staleAfter (st : LoadSolverState) (scns : List MultiScenario)
    (vto : Option (List Nat)) :
    (load_vars st scns vto).1 = markStale st (vto.getD st.solverVars) := rfl

theorem load_vars_scenario_at (st : LoadSolverState) (scns : List MultiScenario)
    (vto : Option (List Nat)) (i : Nat) (hi : i < scns.length) :
    (load_vars st scns vto).2[i]?
      = some { scns.get ⟨i, hi⟩ with
          results := some (scenResultsMap st
            (markStale st (vto.getD st.solverVars)) (vto.getD st.solverVars) i) } := by
  show (scns.enum.map _)[i]? = _
  rw [List.getElem?_map, List.getElem?_enum, List.getElem?_eq_getElem hi]
  rfl

/-- C3: after solving, `_load_vars` selects each scenario index `i` in
turn and stores into that scenario's results map, for every loaded
variable that is non-stale after the marking pass, an entry mapping it to
its scenario-`i` Gurobi solution value (`ScenNX` of its solver
variable). -/
theorem load_vars_results_from_scenNX (st : LoadSolverState)
    (scns : List MultiScenario) (vto : Option (List Nat)) (i : Nat)
    (hi : i < scns.length) (v : Nat)
    (hv : v ∈ vto.getD st.solverVars)
    (hns : (load_vars st scns vto).1 v = false) :
    ∃ s rm, (load_vars st scns vto).2[i]? = some s ∧
      s.name = (scns.get ⟨i, hi⟩).name ∧ s.results = some rm ∧
      rm v = some (st.scenNX i (st.varMap v)) := by
  rw [load_vars_staleAfter] at hns
  refine ⟨_, _, load_vars_scenario_at st scns vto i hi, rfl, rfl, ?_⟩
  rw [scenResultsMap_eq]
  exact if_pos ⟨hv, hns⟩

/-- Witness for C3 at a concrete solver state with two variables and one
scenario. -/
theorem load_vars_results_from_scenNX_witness :
    ∃ s rm, (load_vars exLoadState [baselineScenario] none).2[0]? = some s ∧
      s.name = (([baselineScenario] : List MultiScenario).get ⟨0, by decide⟩).name ∧
      s.results = some rm ∧
      rm 0 = some (exLoadState.scenNX 0 (exLoadState.varMap 0)) := by
  have h := load_vars_results_from_scenNX exLoadState [baselineScenario] none 0
    (by decide) 0 (by decide) (by decide)
  exact h

/-- C9 (amended): a variable with reference count zero is never marked
non-stale by `_load_vars`; and provided it was stale on entry, no
scenario's results map receives an entry for it. -/
theorem load_vars_unreferenced_not_marked (st : LoadSolverState)
    (scns : List MultiScenario) (vto : Option (List Nat)) (v : Nat)
    (href : st.refVars v = 0) :
    ((load_vars st scns vto).1 v = st.stale v) ∧
    (st.stale v = true →
      ∀ s ∈ (load_vars st scns vto).2, ∀ rm, s.results = some rm → rm v = none) := by
  have hmark : (load_vars st scns vto).1 v = st.stale v := by
    rw [load_vars_staleAfter, markStale_eq]
    exact if_neg (fun hc => by omega)
  refine ⟨hmark, ?_⟩
  intro hstale s hs rm hrm
  rcases List.mem_map.mp hs with ⟨⟨j, s0⟩, _, hfs⟩
  rw [← hfs] at hrm
  injection hrm with hrm
  rw [← hrm, scenResultsMap_eq]
  rw [markStale_eq]
  have hcond : ¬ (v ∈ vto.getD st.solverVars ∧ st.refVars v > 0) :=
    fun hc => by omega
  rw [if_neg hcond, hstale]
  exact if_neg (by simp)

/-- Witness for C9's amended statement at a concrete solver state. -/
theorem load_vars_unreferenced_not_marked_witness :
    ((load_vars exLoadState [baselineScenario] none).1 1 = exLoadState.stale 1) ∧
    (exLoadState.stale 1 = true →
      ∀ s ∈ (load_vars exLoadState [baselineScenario] none).2,
        ∀ rm, s.results = some rm → rm 1 = none) :=
  load_vars_unreferenced_not_marked exLoadState [baselineScenario] none 1 rfl

/-- Counterexample to C9 as stated: a variable with reference count zero
that is already non-stale when `_load_vars` runs does receive a results
entry in scenario 0. -/
theorem load_vars_unreferenced_entry_cex :
    exLoadStateNS.refVars 1 = 0 ∧
    ∃ s rm, (load_vars exLoadStateNS [baselineScenario] none).2[0]? = some s ∧
      s.results = some rm ∧ rm 1 = some 1 := by
  refine ⟨rfl, ?_⟩
  exact ⟨_, _, rfl, rfl, rfl⟩

/-- C10: for every sequence of recorded `add_general_info` pairs and
`add_results_info` cells, `save_info` writes the GENERAL banner, each pair
as `name: value` on its own line in insertion order, then the RESULTS
banner followed by the accumulated table rendered with its column
headers. -/
theorem save_info_report_layout (render : ResultsTable → List String → String)
    (gcalls : List (String × String)) (rcalls : List (String × String × String)) :
    save_info render (infoRun gcalls rcalls) =
      "##########\n GENERAL\n##########\n\n"
        ++ (String.intercalate "\n" (gcalls.map fun v => v.1 ++ ": " ++ v.2) ++ "\n\n")
        ++ "##########\n RESULTS\n##########\n\n"
        ++ render (infoRun gcalls rcalls).table (infoRun gcalls rcalls).table.cols := by
  unfold save_info
  rw [infoRun_general]

/-! ### C1 and C2: `_add_scenarios` -/

theorem writeEntries_nil (vm : Nat → Nat) (g : GurobiModel) :
    writeEntries vm [] g = g := rfl

theorem writeEntries_cons (vm : Nat → Nat) (e : (Int × Int) × Nat)
    (L : List ((Int × Int) × Nat)) (g : GurobiModel) :
    writeEntries vm (e :: L) g
      = writeEntries vm L
          (if e.1.2 ≠ e.1.1 then setScenNObj g (vm e.2) e.1.2 else g) := rfl

theorem setScenNObj_curScenario (g : GurobiModel) (gv : Nat) (c : Int) :
    (setScenNObj g gv c).curScenario = g.curScenario := rfl

theorem writeEntries_curScenario (vm : Nat → Nat) :
    ∀ (L : List ((Int × Int) × Nat)) (g : GurobiModel),
    (writeEntries vm L g).curScenario = g.curScenario := by
  intro L
  induction L with
  | nil => intro g; rfl
  | cons e L ih =>
      intro g
      rw [writeEntries_cons, ih]
      split <;> rfl

theorem setScenNObj_scenObj_ne (g : GurobiModel) (gv : Nat) (c : Int)
    (j v : Nat) (hj : j ≠ g.curScenario) :
    (setScenNObj g gv c).scenObj j v = g.scenObj j v := by
  simp only [setScenNObj]
  rw [if_neg (fun hc => hj hc.1)]

theorem writeEntries_scenObj_ne (vm : Nat → Nat) :
    ∀ (L : List ((Int × Int) × Nat)) (g : GurobiModel) (j : Nat)
      (hj : j ≠ g.curScenario) (v : Nat),
    (writeEntries vm L g).scenObj j v = g.scenObj j v := by
  intro L
  induction L with
  | nil => intro g j hj v; rfl
  | cons e L ih =>
      intro g j hj v
      rw [writeEntries_cons]
      by_cases hd : e.1.2 ≠ e.1.1
      · rw [if_pos hd]
        rw [ih (setScenNObj g (vm e.2) e.1.2) j hj v]
        exact setScenNObj_scenObj_ne g (vm e.2) e.1.2 j v hj
      · rw [if_neg hd]
        exact ih g j hj v

theorem writeEntries_scenObj_cur (vm : Nat → Nat) (hinj : Function.Injective vm) :
    ∀ (L : List ((Int × Int) × Nat)) (g : GurobiModel),
    ((L.map fun e => e.2).Nodup) →
    ∀ (gv : Nat) (c : Int),
    ((writeEntries vm L g).scenObj g.curScenario gv = some c ↔
      (∃ e ∈ L, vm e.2 = gv ∧ e.1.2 ≠ e.1.1 ∧ c = e.1.2) ∨
      (g.scenObj g.curScenario gv = some c ∧
        ¬ ∃ e ∈ L, vm e.2 = gv ∧ e.1.2 ≠ e.1.1)) := by
  intro L
  induction L with
  | nil =>
      intro g _ gv c
      rw [writeEntries_nil]
      simp
  | cons e L ih =>
      intro g hnd gv c
      simp only [List.map_cons, List.nodup_cons] at hnd
      rw [writeEntries_cons]
      by_cases hd : e.1.2 ≠ e.1.1
      · rw [if_pos hd]
        have h2 := ih (setScenNObj g (vm e.2) e.1.2) hnd.2 gv c
        rw [show (setScenNObj g (vm e.2) e.1.2).curScenario = g.curScenario from rfl]
          at h2
        rw [h2]
        by_cases hgv : vm e.2 = gv
        · have hslot : (setScenNObj g (vm e.2) e.1.2).scenObj g.curScenario gv
              = some e.1.2 := by
            show (if g.curScenario = g.curScenario ∧ gv = vm e.2 then some e.1.2
                  else g.scenObj g.curScenario gv) = some e.1.2
            rw [if_pos ⟨rfl, hgv.symm⟩]
          have hnoL : ¬ ∃ e2 ∈ L, vm e2.2 = gv ∧ e2.1.2 ≠ e2.1.1 := by
            rintro ⟨e2, he2, hv2, _⟩
            have heq2 : e2.2 = e.2 := hinj (by rw [hv2, hgv])
            have hm : e2.2 ∈ L.map (fun x => x.2) := List.mem_map_of_mem _ he2
            rw [heq2] at hm
            exact hnd.1 hm
          constructor
          · rintro (⟨e2, he2, hv2, hd2, hc⟩ | ⟨hsl, _⟩)
            · exact absurd ⟨e2, he2, hv2, hd2⟩ hnoL
            · rw [hslot] at hsl
              injection hsl with hsl
              exact Or.inl ⟨e, List.mem_cons_self e L, hgv, hd, hsl.symm⟩
          · rintro (⟨e2, he2, hv2, hd2, hc⟩ | ⟨_, hne⟩)
            · rcases List.mem_cons.mp he2 with he2 | he2
              · subst he2
                refine Or.inr ⟨?_, hnoL⟩
                rw [hslot, hc]
              · exact absurd ⟨e2, he2, hv2, hd2⟩ hnoL
            · exact absurd ⟨e, List.mem_cons_self e L, hgv, hd⟩ hne
        · have hslot : (setScenNObj g (vm e.2) e.1.2).scenObj g.curScenario gv
              = g.scenObj g.curScenario gv := by
            show (if g.curScenario = g.curScenario ∧ gv = vm e.2 then some e.1.2
                  else g.scenObj g.curScenario gv) = g.scenObj g.curScenario gv
            rw [if_neg (fun hc2 => hgv hc2.2.symm)]
          rw [hslot]
          constructor
          · rintro (⟨e2, he2, hv2, hd2, hc⟩ | ⟨hsl, hne⟩)
            · exact Or.inl ⟨e2, List.mem_cons_of_mem e he2, hv2, hd2, hc⟩
            · refine Or.inr ⟨hsl, ?_⟩
              rintro ⟨e2, he2, hv2, hd2⟩
              rcases List.mem_cons.mp he2 with he2 | he2
              · exact hgv (he2 ▸ hv2)
              · exact hne ⟨e2, he2, hv2, hd2⟩
          · rintro (⟨e2, he2, hv2, hd2, hc⟩ | ⟨hsl, hne⟩)
            · rcases List.mem_cons.mp he2 with he2 | he2
              · exact absurd (he2 ▸ hv2) hgv
              · exact Or.inl ⟨e2, he2, hv2, hd2, hc⟩
            · exact Or.inr ⟨hsl,
                fun ⟨e2, he2, hv2, hd2⟩ =>
                  hne ⟨e2, List.mem_cons_of_mem e he2, hv2, hd2⟩⟩
      · rw [if_neg hd]
        rw [ih g hnd.2 gv c]
        constructor
        · rintro (⟨e2, he2, hv2, hd2, hc⟩ | ⟨hsl, hne⟩)
          · exact Or.inl ⟨e2, List.mem_cons_of_mem e he2, hv2, hd2, hc⟩
          · refine Or.inr ⟨hsl, ?_⟩
            rintro ⟨e2, he2, hv2, hd2⟩
            rcases List.mem_cons.mp he2 with he2 | he2
            · exact hd (he2 ▸ hd2)
            · exact hne ⟨e2, he2, hv2, hd2⟩
        · rintro (⟨e2, he2, hv2, hd2, hc⟩ | ⟨hsl, hne⟩)
          · rcases List.mem_cons.mp he2 with he2 | he2
            · exact absurd (he2 ▸ hd2) hd
            · exact Or.inl ⟨e2, he2, hv2, hd2, hc⟩
          · exact Or.inr ⟨hsl,
              fun ⟨e2, he2, hv2, hd2⟩ =>
                hne ⟨e2, List.mem_cons_of_mem e he2, hv2, hd2⟩⟩

theorem diffEntries_length (base scen : StdRepn)
    (hl1 : scen.linear_coefs.length = base.linear_coefs.length)
    (hl2 : base.linear_vars.length = base.linear_coefs.length) :
    (diffEntries base scen).length = base.linear_vars.length := by
  simp [diffEntries, List.length_zip, hl1, hl2]

theorem diffEntries_getElem (base scen : StdRepn) (j : Nat)
    (hj : j < (diffEntries base scen).length) :
    (diffEntries base scen)[j]
      = ((base.linear_coefs.getD j 0, scen.linear_coefs.getD j 0),
         base.linear_vars.getD j 0) := by
  have hj0 : j < ((base.linear_coefs.zip scen.linear_coefs).zip
      base.linear_vars).length := hj
  rw [List.length_zip, List.length_zip] at hj0
  have hjb : j < base.linear_coefs.length := by omega
  have hjs : j < scen.linear_coefs.length := by omega
  have hjv : j < base.linear_vars.length := by omega
  show ((base.linear_coefs.zip scen.linear_coefs).zip base.linear_vars)[j] = _
  rw [List.getElem_zip, List.getElem_zip]
  rw [List.getD_eq_getElem _ _ hjb, List.getD_eq_getElem _ _ hjs,
    List.getD_eq_getElem _ _ hjv]

theorem diffEntries_mem_iff (base scen : StdRepn)
    (hl1 : scen.linear_coefs.length = base.linear_coefs.length)
    (hl2 : base.linear_vars.length = base.linear_coefs.length)
    (P : ((Int × Int) × Nat) → Prop) :
    (∃ e ∈ diffEntries base scen, P e) ↔
      ∃ j, j < base.linear_vars.length ∧
        P ((base.linear_coefs.getD j 0, scen.linear_coefs.getD j 0),
           base.linear_vars.getD j 0) := by
  have hlen := diffEntries_length base scen hl1 hl2
  constructor
  · rintro ⟨e, he, hP⟩
    rcases List.mem_iff_getElem.mp he with ⟨j, hj, hge⟩
    have hj2 : j < base.linear_vars.length := by rw [hlen] at hj; exact hj
    refine ⟨j, hj2, ?_⟩
    rw [diffEntries_getElem base scen j hj] at hge
    rw [hge]
    exact hP
  · rintro ⟨j, hj, hP⟩
    have hj2 : j < (diffEntries base scen).length := by rw [hlen]; exact hj
    refine ⟨(diffEntries base scen)[j], List.getElem_mem hj2, ?_⟩
    rw [diffEntries_getElem base scen j hj2]
    exact hP

theorem diffEntries_map_snd (base scen : StdRepn)
    (hl1 : scen.linear_coefs.length = base.linear_coefs.length)
    (hl2 : base.linear_vars.length = base.linear_coefs.length) :
    (diffEntries base scen).map (fun e => e.2) = base.linear_vars := by
  unfold diffEntries
  exact List.map_snd_zip _ _ (by rw [List.length_zip]; omega)

theorem selScen_curScenario (i : Nat) (s : MultiScenario) (g : GurobiModel) :
    (selScen i s g).curScenario = i := rfl

theorem selScen_scenObj (i : Nat) (s : MultiScenario) (g : GurobiModel) :
    (selScen i s g).scenObj = g.scenObj := rfl

theorem addScenLoop_preserves_lower (genRepn : ParamStore → StdRepn)
    (vm : Nat → Nat) (base : StdRepn) :
    ∀ (scns : List MultiScenario) (i : Nat) (m : PModel) (g g2 : GurobiModel),
    addScenLoop genRepn vm base i scns m g = .ok g2 →
    ∀ j, j < i → ∀ gv, g2.scenObj j gv = g.scenObj j gv := by
  intro scns
  induction scns with
  | nil =>
      intro i m g g2 hok j hj gv
      simp only [addScenLoop] at hok
      injection hok with hok
      rw [← hok]
  | cons s rest ih =>
      intro i m g g2 hok j hj gv
      simp only [addScenLoop] at hok
      by_cases hi : i = 0
      · rw [if_pos hi] at hok
        by_cases hne :
            base.linear_coefs ≠ (genRepn (msEnter s m).2.params).linear_coefs
        · rw [if_pos hne] at hok
          cases hok
        · rw [if_neg hne] at hok
          rw [ih (i + 1) _ _ g2 hok j (by omega) gv]
          rfl
      · rw [if_neg hi] at hok
        by_cases heq :
            base.linear_coefs = (genRepn (msEnter s m).2.params).linear_coefs
        · rw [if_pos heq] at hok
          cases hok
        · rw [if_neg heq] at hok
          rw [ih (i + 1) _ _ g2 hok j (by omega) gv]
          rw [writeEntries_scenObj_ne vm _ _ j (by omega : j ≠ i) gv]
          rfl

theorem addScenLoop_slot_spec (genRepn : ParamStore → StdRepn) (vm : Nat → Nat)
    (base : StdRepn) (hinj : Function.Injective vm)
    (hndv : base.linear_vars.Nodup)
    (hlv : base.linear_vars.length = base.linear_coefs.length) :
    ∀ (scns : List MultiScenario) (i : Nat) (m : PModel) (g g2 : GurobiModel),
    1 ≤ i →
    (∀ s ∈ scns, (∀ c ∈ s.changes, c.old_value = none) ∧
      (s.changes.map MultiScenarioParamChange.key).Nodup) →
    (∀ s ∈ scns, (scenCoefs genRepn m.params s).length = base.linear_coefs.length) →
    (∀ j gv, i ≤ j → g.scenObj j gv = none) →
    addScenLoop genRepn vm base i scns m g = .ok g2 →
    ∀ k, ∀ hk : k < scns.length, ∀ gv c,
      (g2.scenObj (i + k) gv = some c ↔
        ∃ j, j < base.linear_vars.length ∧
          vm (base.linear_vars.getD j 0) = gv ∧
          (scenCoefs genRepn m.params (scns.get ⟨k, hk⟩)).getD j 0
            ≠ base.linear_coefs.getD j 0 ∧
          c = (scenCoefs genRepn m.params (scns.get ⟨k, hk⟩)).getD j 0) := by
  intro scns
  induction scns with
  | nil =>
      intro i m g g2 hi hscn hlens hempty hok k hk
      exact absurd hk (by simp)
  | cons s rest ih =>
      intro i m g g2 hi hscn hlens hempty hok k hk gv c
      simp only [addScenLoop] at hok
      rw [if_neg (by omega : ¬ i = 0)] at hok
      by_cases heq : base.linear_coefs = (genRepn (msEnter s m).2.params).linear_coefs
      · rw [if_pos heq] at hok
        cases hok
      · rw [if_neg heq] at hok
        have hsc : scenCoefs genRepn m.params s
            = (genRepn (msEnter s m).2.params).linear_coefs := by
          unfold scenCoefs
          rw [msEnter_params]
        have hparams : (msExit (msEnter s m).1 (msEnter s m).2).params = m.params :=
          scenario_block_params s m (hscn s (List.mem_cons_self s rest)).2
            (hscn s (List.mem_cons_self s rest)).1
        have hl1 : (genRepn (msEnter s m).2.params).linear_coefs.length
            = base.linear_coefs.length := by
          rw [← hsc]
          exact hlens s (List.mem_cons_self s rest)
        cases k with
        | zero =>
            have hlow := addScenLoop_preserves_lower genRepn vm base rest (i + 1)
              _ _ g2 hok i (by omega) gv
            rw [Nat.add_zero, hlow]
            have hnd2 : (((diffEntries base (genRepn (msEnter s m).2.params)).map
                fun e => e.2).Nodup) := by
              rw [diffEntries_map_snd _ _ hl1 hlv]
              exact hndv
            have hcur := writeEntries_scenObj_cur vm hinj
              (diffEntries base (genRepn (msEnter s m).2.params))
              (selScen i s g) hnd2 gv c
            rw [selScen_curScenario] at hcur
            rw [hcur]
            have hget : (s :: rest).get ⟨0, hk⟩ = s := rfl
            rw [hget, hsc]
            have hnone : (selScen i s g).scenObj i gv = none := by
              rw [selScen_scenObj]
              exact hempty i gv (by omega)
            have hmem := diffEntries_mem_iff base
              (genRepn (msEnter s m).2.params) hl1 hlv
              (fun e => vm e.2 = gv ∧ e.1.2 ≠ e.1.1 ∧ c = e.1.2)
            constructor
            · rintro (hex | ⟨habs, _⟩)
              · exact hmem.mp hex
              · rw [hnone] at habs
                cases habs
            · intro hex
              exact Or.inl (hmem.mpr hex)
        | succ k2 =>
            have hk2 : k2 < rest.length := by
              have hk3 := hk
              simp only [List.length_cons] at hk3
              omega
            have hempty2 : ∀ j gv2, i + 1 ≤ j →
                (writeEntries vm
                  (diffEntries base (genRepn (msEnter s m).2.params))
                  (selScen i s g)).scenObj j gv2 = none := by
              intro j gv2 hj
              rw [writeEntries_scenObj_ne vm _ _ j (by omega : j ≠ i) gv2]
              rw [selScen_scenObj]
              exact hempty j gv2 (by omega)
            have hscn2 : ∀ s2 ∈ rest, (∀ c2 ∈ s2.changes, c2.old_value = none) ∧
                (s2.changes.map MultiScenarioParamChange.key).Nodup :=
              fun s2 hs2 => hscn s2 (List.mem_cons_of_mem s hs2)
            have hlens2 : ∀ s2 ∈ rest,
                (scenCoefs genRepn (msExit (msEnter s m).1 (msEnter s m).2).params
                  s2).length = base.linear_coefs.length := by
              intro s2 hs2
              rw [hparams]
              exact hlens s2 (List.mem_cons_of_mem s hs2)
            have hspec := ih (i + 1) _ _ g2 (by omega) hscn2 hlens2 hempty2 hok
              k2 hk2 gv c
            rw [hparams] at hspec
            rw [show i + (k2 + 1) = i + 1 + k2 from by omega]
            exact hspec

theorem addScenLoop_error_iff (genRepn : ParamStore → StdRepn) (vm : Nat → Nat)
    (base : StdRepn) :
    ∀ (scns : List MultiScenario) (i : Nat) (m : PModel) (g : GurobiModel),
    1 ≤ i →
    (∀ s ∈ scns, (∀ c ∈ s.changes, c.old_value = none) ∧
      (s.changes.map MultiScenarioParamChange.key).Nodup) →
    ((∃ e, addScenLoop genRepn vm base i scns m g = .error e) ↔
      ∃ s ∈ scns, scenCoefs genRepn m.params s = base.linear_coefs) := by
  intro scns
  induction scns with
  | nil =>
      intro i m g hi hscn
      simp only [addScenLoop]
      constructor
      · rintro ⟨e, he⟩
        cases he
      · rintro ⟨s, hs, _⟩
        cases hs
  | cons s rest ih =>
      intro i m g hi hscn
      simp only [addScenLoop]
      rw [if_neg (by omega : ¬ i = 0)]
      have hsc : scenCoefs genRepn m.params s
          = (genRepn (msEnter s m).2.params).linear_coefs := by
        unfold scenCoefs
        rw [msEnter_params]
      by_cases heq : base.linear_coefs = (genRepn (msEnter s m).2.params).linear_coefs
      · rw [if_pos heq]
        constructor
        · intro _
          exact ⟨s, List.mem_cons_self s rest, hsc.trans heq.symm⟩
        · intro _
          exact ⟨_, rfl⟩
      · rw [if_neg heq]
        have hparams : (msExit (msEnter s m).1 (msEnter s m).2).params = m.params :=
          scenario_block_params s m (hscn s (List.mem_cons_self s rest)).2
            (hscn s (List.mem_cons_self s rest)).1
        rw [ih (i + 1) _ _ (by omega)
          (fun s2 hs2 => hscn s2 (List.mem_cons_of_mem s hs2))]
        rw [hparams]
        constructor
        · rintro ⟨s2, hs2, h2⟩
          exact ⟨s2, List.mem_cons_of_mem s hs2, h2⟩
        · rintro ⟨s2, hs2, h2⟩
          rcases List.mem_cons.mp hs2 with hs2 | hs2
          · subst hs2
            exact absurd (hsc.symm.trans h2).symm heq
          · exact ⟨s2, hs2, h2⟩

/-- C1: whenever `_add_scenarios` completes, it has processed each scenario
in order — applying its stored overrides, recomputing the linear objective
coefficients, and diffing them against the base case — and the solver slot
of every scenario index `k ≥ 1` holds exactly the positions whose
coefficient differs from the base case, mapped through the
pyomo-to-Gurobi variable map to the scenario coefficient (slot 0, the base
scenario, is left untouched by the `continue`).  Hypotheses: the per-run
side conditions — an injective variable map, duplicate-free repn
variables, repn vectors of matching length, fresh pairwise-distinct
changes, and empty initial scenario slots. -/
theorem add_scenarios_writes_exact_diffs (genRepn : ParamStore → StdRepn)
    (vm : Nat → Nat) (scns : List MultiScenario) (m : PModel)
    (g0 g2 : GurobiModel)
    (hinj : Function.Injective vm)
    (hscn : ∀ s ∈ scns, (∀ c ∈ s.changes, c.old_value = none) ∧
      (s.changes.map MultiScenarioParamChange.key).Nodup)
    (hndv : (genRepn m.params).linear_vars.Nodup)
    (hlv : (genRepn m.params).linear_vars.length
      = (genRepn m.params).linear_coefs.length)
    (hlens : ∀ s ∈ scns, (scenCoefs genRepn m.params s).length
      = (genRepn m.params).linear_coefs.length)
    (hempty : ∀ j gv, g0.scenObj j gv = none)
    (hok : add_scenarios genRepn vm scns m g0 = .ok g2) :
    (0 < scns.length → ∀ gv, g2.scenObj 0 gv = none) ∧
    (∀ k, ∀ hk : k < scns.length, 1 ≤ k → ∀ gv c,
      (g2.scenObj k gv = some c ↔
        ∃ j, j < (genRepn m.params).linear_vars.length ∧
          vm ((genRepn m.params).linear_vars.getD j 0) = gv ∧
          (scenCoefs genRepn m.params (scns.get ⟨k, hk⟩)).getD j 0
            ≠ (genRepn m.params).linear_coefs.getD j 0 ∧
          c = (scenCoefs genRepn m.params (scns.get ⟨k, hk⟩)).getD j 0)) := by
  unfold add_scenarios at hok
  cases scns with
  | nil =>
      constructor
      · intro h
        exact absurd h (by simp)
      · intro k hk
        exact absurd hk (by simp)
  | cons s0 rest =>
      simp only [addScenLoop] at hok
      rw [if_pos trivial] at hok
      by_cases hne : (genRepn m.params).linear_coefs
          ≠ (genRepn (msEnter s0 m).2.params).linear_coefs
      · rw [if_pos hne] at hok
        cases hok
      · rw [if_neg hne] at hok
        have hparams : (msExit (msEnter s0 m).1 (msEnter s0 m).2).params
            = m.params :=
          scenario_block_params s0 m (hscn s0 (List.mem_cons_self s0 rest)).2
            (hscn s0 (List.mem_cons_self s0 rest)).1
        have hscn2 : ∀ s2 ∈ rest, (∀ c2 ∈ s2.changes, c2.old_value = none) ∧
            (s2.changes.map MultiScenarioParamChange.key).Nodup :=
          fun s2 hs2 => hscn s2 (List.mem_cons_of_mem s0 hs2)
        have hlens2 : ∀ s2 ∈ rest,
            (scenCoefs genRepn (msExit (msEnter s0 m).1 (msEnter s0 m).2).params
              s2).length = (genRepn m.params).linear_coefs.length := by
          intro s2 hs2
          rw [hparams]
          exact hlens s2 (List.mem_cons_of_mem s0 hs2)
        have hempty2 : ∀ j gv, 0 + 1 ≤ j →
            (selScen 0 s0 { g0 with numScenarios := (s0 :: rest).length }).scenObj
              j gv = none := by
          intro j gv _
          rw [selScen_scenObj]
          exact hempty j gv
        constructor
        · intro _ gv
          have hlow := addScenLoop_preserves_lower genRepn vm (genRepn m.params)
            rest (0 + 1) _ _ g2 hok 0 (by omega) gv
          rw [hlow, selScen_scenObj]
          exact hempty 0 gv
        · intro k hk h1 gv c
          cases k with
          | zero => omega
          | succ k2 =>
              have hk2 : k2 < rest.length := by
                have hk3 := hk
                simp only [List.length_cons] at hk3
                omega
              have hspec := addScenLoop_slot_spec genRepn vm (genRepn m.params)
                hinj hndv hlv rest (0 + 1) _ _ g2 (by omega) hscn2 hlens2 hempty2
                hok k2 hk2 gv c
              rw [hparams] at hspec
              rw [show 0 + 1 + k2 = k2 + 1 from by omega] at hspec
              exact hspec

/-- C2: `_add_scenarios` raises exactly when the first scenario's
recomputed linear objective coefficients differ from the base case, or
some later scenario's recomputed coefficients coincide with the base case
(no detectable effect); otherwise it completes without raising.
Hypotheses: every scenario's changes are fresh and target pairwise-distinct
parameters, so that each scenario's coefficients are those of the base
model with just its own overrides applied. -/
theorem add_scenarios_raises_iff (genRepn : ParamStore → StdRepn)
    (vm : Nat → Nat) (scns : List MultiScenario) (m : PModel) (g0 : GurobiModel)
    (hscn : ∀ s ∈ scns, (∀ c ∈ s.changes, c.old_value = none) ∧
      (s.changes.map MultiScenarioParamChange.key).Nodup) :
    ((∃ e, add_scenarios genRepn vm scns m g0 = .error e) ↔
      ((∃ h0 : 0 < scns.length,
          scenCoefs genRepn m.params (scns.get ⟨0, h0⟩)
            ≠ (genRepn m.params).linear_coefs) ∨
       (∃ k, ∃ hk : k < scns.length, 1 ≤ k ∧
          scenCoefs genRepn m.params (scns.get ⟨k, hk⟩)
            = (genRepn m.params).linear_coefs))) := by
  unfold add_scenarios
  cases scns with
  | nil =>
      constructor
      · rintro ⟨e, he⟩
        cases he
      · rintro (⟨h0, _⟩ | ⟨k, hk, _⟩)
        · exact absurd h0 (by simp)
        · exact absurd hk (by simp)
  | cons s0 rest =>
      simp only [addScenLoop]
      rw [if_pos trivial]
      have hsc0 : scenCoefs genRepn m.params s0
          = (genRepn (msEnter s0 m).2.params).linear_coefs := by
        unfold scenCoefs
        rw [msEnter_params]
      by_cases hne : (genRepn m.params).linear_coefs
          ≠ (genRepn (msEnter s0 m).2.params).linear_coefs
      · rw [if_pos hne]
        constructor
        · intro _
          refine Or.inl ⟨Nat.succ_pos rest.length, ?_⟩
          rw [show (s0 :: rest).get ⟨0, Nat.succ_pos rest.length⟩ = s0 from rfl,
            hsc0]
          exact fun h => hne h.symm
        · intro _
          exact ⟨_, rfl⟩
      · rw [if_neg hne]
        have heq : (genRepn m.params).linear_coefs
            = (genRepn (msEnter s0 m).2.params).linear_coefs := not_not.mp hne
        have hparams : (msExit (msEnter s0 m).1 (msEnter s0 m).2).params
            = m.params :=
          scenario_block_params s0 m (hscn s0 (List.mem_cons_self s0 rest)).2
            (hscn s0 (List.mem_cons_self s0 rest)).1
        rw [addScenLoop_error_iff genRepn vm (genRepn m.params) rest (0 + 1) _ _
          (by omega) (fun s2 hs2 => hscn s2 (List.mem_cons_of_mem s0 hs2))]
        rw [hparams]
        constructor
        · rintro ⟨s2, hs2, h2⟩
          right
          rcases List.mem_iff_getElem.mp hs2 with ⟨j, hj, hgj⟩
          refine ⟨j + 1, Nat.succ_lt_succ hj, by omega, ?_⟩
          rw [← hgj] at h2
          exact h2
        · rintro (⟨h0, hne0⟩ | ⟨k, hk, h1, hkeq⟩)
          · refine absurd ?_ hne0
            rw [show (s0 :: rest).get ⟨0, h0⟩ = s0 from rfl, hsc0]
            exact heq.symm
          · cases k with
            | zero => omega
            | succ k2 =>
                have hk2 : k2 < rest.length := by
                  have hk3 := hk
                  simp only [List.length_cons] at hk3
                  omega
                refine ⟨rest.get ⟨k2, hk2⟩, List.get_mem rest k2 hk2, ?_⟩
                exact hkeq

/-- Witness for C1 at the concrete two-scenario run: the solver slot of
scenario 1 holds the changed coefficient. -/
theorem add_scenarios_writes_exact_diffs_witness :
    exAddOut.scenObj 1 0 = some 2 := by
  have h := add_scenarios_writes_exact_diffs exRepn id exScns exModel exG0 exAddOut
    (fun a b hab => hab)
    (by decide)
    (by decide)
    (by decide)
    (by decide)
    (fun j gv => rfl)
    rfl
  exact (h.2 1 (by decide) (by decide) 0 2).mpr
    ⟨0, by decide, by decide, by decide, by decide⟩

/-- Witness for C2: a run whose second scenario has no detectable effect
on the objective raises. -/
theorem add_scenarios_raises_iff_witness :
    ∃ e, add_scenarios exRepn id exScnsNoEffect exModel exG0 = Except.error e := by
  refine (add_scenarios_raises_iff exRepn id exScnsNoEffect exModel exG0
    (by decide)).mpr ?_
  right
  exact ⟨1, by decide, by decide, by decide⟩

end Switch
